import Mathlib

/-!
Shallow embedding of the ERC-20 upgradable tutorial repository: the two
Solidity implementation contracts `ERC20UpgradableV1` and `ERC20UpgradableV2`
(src/hardhat.config.js, embedded tutorial text), together with the
transparent-proxy dispatcher / upgrade controller that the `deploy.js` and
`upgrade.js` scripts drive through `upgrades.deployProxy` and
`upgrades.upgradeProxy`.  The proxy machinery and the OpenZeppelin base
contracts (Initializable, ERC20Upgradeable, ERC20BurnableUpgradeable,
PausableUpgradeable, OwnableUpgradeable) are library code not present under
src/, so those parts are modelled from the spec, as marked on each definition.
-/

namespace ERC20Upgradable

/-- An account identity (an Ethereum address), modelled as a natural number. -/
abbrev Address : Type := Nat

/-- The two implementation contracts of the repository. -/
inductive Impl : Type
  | V1 : Impl
  | V2 : Impl
deriving DecidableEq, Repr

/-- Failure outcomes of a call.  `AlreadyInitialized`, `Unauthorized` are the
spec's error taxonomy; the rest are the revert causes of the Solidity
`require` / modifier checks of the contracts and their OpenZeppelin bases. -/
inductive Err : Type
  | AlreadyInitialized : Err
  | Unauthorized : Err
  | NotOwner : Err
  | Paused : Err
  | NotPaused : Err
  | NotWhitelisted : Err
  | InsufficientBalance : Err
  | UnknownSelector : Err
deriving DecidableEq, Repr

/-- Pointwise update of a Solidity `mapping`. -/
def mapWrite {β : Type} (f : Address → β) (a : Address) (v : β) : Address → β :=
  fun x => if x = a then v else f x

/-- The persistent storage region of one Instance (the proxy's storage, which
both implementations execute against via delegatecall).  Fields in declaration
order:  the Initializable flags, then the ERC-20 business fields of V1
(name, symbol, total supply, balances), the Pausable flag, the Ownable owner,
and the whitelist mapping that V2 appends
(`mapping(address => bool) whitelistedAddresses`, src line 268). -/
structure Storage : Type where
  initialized : Bool
  initializersDisabled : Bool
  name : String
  symbol : String
  totalSupply : Nat
  balances : Address → Nat
  paused : Bool
  owner : Address
  whitelistedAddresses : Address → Bool

/-- Zero-filled storage, as the EVM presents fresh storage to a new account. -/
def Storage.empty : Storage :=
  { initialized := false
    initializersDisabled := false
    name := ""
    symbol := ""
    totalSupply := 0
    balances := fun _ => 0
    paused := false
    owner := 0
    whitelistedAddresses := fun _ => false }

/-- Modelled from the spec: the `whenNotPaused` hook that both contracts
install by overriding `_beforeTokenTransfer` (src lines 160-166 and 299-305);
the underlying PausableUpgradeable modifier is library code not under src/. -/
def beforeTokenTransfer (s : Storage) : Except Err Unit :=
  if s.paused then .error .Paused else .ok ()

/-- Modelled from the spec: OpenZeppelin `ERC20Upgradeable._mint`, the library
primitive called by both contracts' `mint`; it runs the `_beforeTokenTransfer`
pause hook and then credits `to`, growing the total supply. -/
def erc20Mint (toAddr : Address) (amount : Nat) (s : Storage) : Except Err Storage :=
  match beforeTokenTransfer s with
  | .error e => .error e
  | .ok _ =>
      .ok { s with
              totalSupply := s.totalSupply + amount
              balances := mapWrite s.balances toAddr (s.balances toAddr + amount) }

/-- Modelled from the spec: OpenZeppelin `ERC20BurnableUpgradeable.burn`,
which burns from the caller after the pause hook and a balance check. -/
def erc20Burn (sender : Address) (amount : Nat) (s : Storage) : Except Err Storage :=
  match beforeTokenTransfer s with
  | .error e => .error e
  | .ok _ =>
      if s.balances sender < amount then .error .InsufficientBalance
      else
        .ok { s with
                totalSupply := s.totalSupply - amount
                balances := mapWrite s.balances sender (s.balances sender - amount) }

/-- Modelled from the spec: OpenZeppelin `ERC20Upgradeable.transfer`, moving
`amount` from the caller to `to` after the pause hook and a balance check. -/
def erc20Transfer (sender toAddr : Address) (amount : Nat) (s : Storage) :
    Except Err Storage :=
  match beforeTokenTransfer s with
  | .error e => .error e
  | .ok _ =>
      if s.balances sender < amount then .error .InsufficientBalance
      else
        let afterDebit := mapWrite s.balances sender (s.balances sender - amount)
        .ok { s with balances := mapWrite afterDebit toAddr (afterDebit toAddr + amount) }

/-- Modelled from the spec: the OpenZeppelin `onlyOwner` modifier of
OwnableUpgradeable, guarding `pause`, `unpause` and (in V2) `addUser`. -/
def onlyOwner (sender : Address) (s : Storage) : Except Err Unit :=
  if sender = s.owner then .ok () else .error .NotOwner

/-- `verifyUser` of ERC20UpgradableV2 (src lines 274-277): a view returning
whether the address is whitelisted; it reads and never writes storage. -/
def verifyUser (s : Storage) (a : Address) : Bool :=
  s.whitelistedAddresses a

/-- The business selectors the two implementations expose, with arguments. -/
inductive BizCall : Type
  | init : BizCall
  | mint : Address → Nat → BizCall
  | burn : Nat → BizCall
  | transfer : Address → Nat → BizCall
  | pause : BizCall
  | unpause : BizCall
  | addUser : Address → BizCall
  | verifyUser : Address → BizCall
deriving DecidableEq, Repr

/-- Executing one business call of implementation `impl` against storage `s`
with caller `sender`.  Each branch is the body of the corresponding Solidity
function of ERC20UpgradableV1 / ERC20UpgradableV2; an `Except.error` result is
a revert, leaving the pre-call storage in force (the host's calls are atomic).
The `initializer` modifier and `_disableInitializers` are OpenZeppelin
Initializable code not under src/, modelled from the spec's Initializer Guard:
a call passes the guard only when the contract is neither initialized nor
constructed with its initializers disabled, and then atomically records
initialization within the same call. -/
def execBiz (impl : Impl) (sender : Address) (c : BizCall) (s : Storage) :
    Except Err Storage :=
  match c with
  | .init =>
      -- `function initialize() initializer public` (src 141-146 and 279-284):
      -- __ERC20_init("ERC20Upgradable", "EUC"); __ERC20Burnable_init();
      -- __Pausable_init(); __Ownable_init() (owner := msg.sender).
      if s.initialized || s.initializersDisabled then .error .AlreadyInitialized
      else
        .ok { s with
                initialized := true
                name := "ERC20Upgradable"
                symbol := "EUC"
                paused := false
                owner := sender }
  | .mint toAddr amount =>
      match impl with
      | .V1 => erc20Mint toAddr amount s                -- src 156-158: no restriction
      | .V2 =>                                       -- src 294-297: require(verifyUser(toAddr))
          if verifyUser s toAddr then erc20Mint toAddr amount s
          else .error .NotWhitelisted
  | .burn amount => erc20Burn sender amount s
  | .transfer toAddr amount => erc20Transfer sender toAddr amount s
  | .pause =>
      match onlyOwner sender s with
      | .error e => .error e
      | .ok _ => if s.paused then .error .Paused else .ok { s with paused := true }
  | .unpause =>
      match onlyOwner sender s with
      | .error e => .error e
      | .ok _ => if s.paused then .ok { s with paused := false } else .error .NotPaused
  | .addUser a =>
      match impl with
      | .V1 => .error .UnknownSelector               -- V1 has no such function
      | .V2 =>                                       -- src 270-272
          match onlyOwner sender s with
          | .error e => .error e
          | .ok _ => .ok { s with whitelistedAddresses := mapWrite s.whitelistedAddresses a true }
  | .verifyUser _ =>
      match impl with
      | .V1 => .error .UnknownSelector               -- V1 has no such function
      | .V2 => .ok s                                 -- a view: storage unchanged

/-- Function selectors, management and business, for the Dispatcher's routing. -/
inductive Selector : Type
  | init : Selector
  | mint : Selector
  | burn : Selector
  | transfer : Selector
  | pause : Selector
  | unpause : Selector
  | addUser : Selector
  | verifyUser : Selector
  | upgrade : Selector
  | transferAdmin : Selector
deriving DecidableEq, Repr

/-- A call arriving at an Instance: a forwarded business call, or one of the
two reserved management operations of the Upgrade Controller. -/
inductive Call : Type
  | biz : BizCall → Call
  | upgrade : Impl → Call
  | transferAdmin : Address → Call
deriving DecidableEq, Repr

/-- The selector of a business call. -/
def BizCall.sel : BizCall → Selector
  | .init => .init
  | .mint _ _ => .mint
  | .burn _ => .burn
  | .transfer _ _ => .transfer
  | .pause => .pause
  | .unpause => .unpause
  | .addUser _ => .addUser
  | .verifyUser _ => .verifyUser

/-- The selector of a call. -/
def Call.sel : Call → Selector
  | .biz c => c.sel
  | .upgrade _ => .upgrade
  | .transferAdmin _ => .transferAdmin

/-- Whether a selector is a reserved management operation. -/
def isMgmtSelector : Selector → Bool
  | .upgrade => true
  | .transferAdmin => true
  | _ => false

/-- Which selectors each implementation defines: both define the six V1
functions; only V2 defines `addUser` and `verifyUser`; neither defines a
selector clashing with the reserved management operations. -/
def implDefines (impl : Impl) : Selector → Bool
  | .upgrade => false
  | .transferAdmin => false
  | .addUser => match impl with | .V1 => false | .V2 => true
  | .verifyUser => match impl with | .V1 => false | .V2 => true
  | _ => true

/-- One Instance: the long-lived proxy object with its metadata namespace
(active implementation, admin identity — `initialized` lives in `store`, the
Initializable slot being part of the delegatecall-shared storage here) and its
business-namespace storage. -/
structure Instance : Type where
  activeImpl : Impl
  adminIdentity : Address
  store : Storage

/-- Modelled from the spec: the Upgrade Controller's management operations
behind `upgrades.deployProxy` / `upgrades.upgradeProxy` (library code not
under src/): `upgrade` atomically swaps the active implementation and
`transferAdmin` the admin identity, touching nothing else. -/
def execMgmt (inst : Instance) (c : Call) : Except Err Instance :=
  match c with
  | .upgrade newImpl => .ok { inst with activeImpl := newImpl }
  | .transferAdmin newAdmin => .ok { inst with adminIdentity := newAdmin }
  | .biz _ => .error .UnknownSelector

/-- Forwarding a business call to the active implementation, executed against
the Instance's own storage; a management call reaching this path (a non-admin
caller on a reserved selector the implementation does not define) fails
`Unauthorized`. -/
def forwardBiz (inst : Instance) (caller : Address) (c : Call) :
    Except Err Instance :=
  match c with
  | .biz bc =>
      match execBiz inst.activeImpl caller bc inst.store with
      | .ok s' => .ok { inst with store := s' }
      | .error e => .error e
  | _ => .error .Unauthorized

/-- Modelled from the spec: the transparent-proxy Dispatcher (library code not
under src/).  Routing is caller-identity first, selector second: a reserved
management selector from the admin goes to the Upgrade Controller; from any
other caller it is forwarded as an ordinary business call when the active
implementation defines that selector, and fails `Unauthorized` otherwise; a
non-management selector is always forwarded. -/
def handle (inst : Instance) (caller : Address) (c : Call) :
    Except Err Instance :=
  if isMgmtSelector c.sel then
    if caller = inst.adminIdentity then execMgmt inst c
    else if implDefines inst.activeImpl c.sel then forwardBiz inst caller c
    else .error .Unauthorized
  else forwardBiz inst caller c

/-- The state after a call under the host's atomic call semantics: a failed
call leaves storage exactly as it was before the call began. -/
def applyCall (inst : Instance) (caller : Address) (c : Call) : Instance :=
  match handle inst caller c with
  | .ok i => i
  | .error _ => inst

/-- Running a sequence of calls, each tagged with its caller. -/
def runCalls (inst : Instance) (cs : List (Address × Call)) : Instance :=
  cs.foldl (fun i p => applyCall i p.1 p.2) inst

/-- Modelled from the spec: `upgrades.deployProxy(ERC20UpgradableV1, [], {
initializer: "initialize", kind: "transparent" })` of scripts/deploy.js
(src 189-192): create the Instance on zeroed storage with V1 active and the
deployer as admin, and invoke `initialize` through the proxy as part of the
same logical operation. -/
def deployProxy (deployer : Address) : Except Err Instance :=
  handle { activeImpl := Impl.V1, adminIdentity := deployer, store := Storage.empty }
    deployer (Call.biz BizCall.init)

/-- The implementation contract's own storage right after its constructor ran:
the constructor (src 137-139 and 264-266) calls `_disableInitializers()`, so
the flag disabling all initializers is set in the implementation's own storage
region. -/
def implConstructedStorage : Storage :=
  { Storage.empty with initializersDisabled := true }

/-! ## Helper lemmas -/

/-- A business selector is never a reserved management selector. -/
lemma isMgmt_biz (bc : BizCall) : isMgmtSelector (Call.sel (Call.biz bc)) = false := by
  cases bc <;> rfl

/-- The Dispatcher always forwards a business call to the active
implementation. -/
lemma handle_biz (inst : Instance) (caller : Address) (bc : BizCall) :
    handle inst caller (Call.biz bc) = forwardBiz inst caller (Call.biz bc) := by
  simp [handle, isMgmt_biz]

/-- What a successful business step does to the storage fields used by the
invariants below: it never touches the initializers-disabled flag, it keeps
`initialized` true once true, and it changes a whitelist entry only by an
`addUser` on that very address, and then only to `true`. -/
lemma execBiz_ok_frame (impl : Impl) (sender : Address) (c : BizCall) (s s' : Storage)
    (h : execBiz impl sender c s = Except.ok s') :
    s'.initializersDisabled = s.initializersDisabled ∧
    (s.initialized = true → s'.initialized = true) ∧
    (∀ a : Address, s'.whitelistedAddresses a = s.whitelistedAddresses a ∨
       (c = BizCall.addUser a ∧ s'.whitelistedAddresses a = true)) := by
  cases c with
  | addUser b =>
      cases impl with
      | V1 => exact Except.noConfusion h
      | V2 =>
          simp only [execBiz] at h
          split at h
          · exact Except.noConfusion h
          · injection h with h
            subst h
            refine ⟨rfl, fun hi => hi, fun a => ?_⟩
            by_cases hx : a = b
            · subst hx
              exact Or.inr ⟨rfl, by simp [mapWrite]⟩
            · exact Or.inl (by simp [mapWrite, hx])
  | init =>
      simp only [execBiz] at h
      split at h
      · exact Except.noConfusion h
      · injection h with h
        subst h
        exact ⟨rfl, fun _ => rfl, fun a => Or.inl rfl⟩
  | mint toA amt =>
      cases impl <;>
        simp only [execBiz, erc20Mint, beforeTokenTransfer] at h <;>
        (repeat' split at h) <;>
        first
          | exact Except.noConfusion h
          | (injection h with h; subst h
             exact ⟨rfl, fun hi => hi, fun a => Or.inl rfl⟩)
  | burn amt =>
      simp only [execBiz, erc20Burn, beforeTokenTransfer] at h
      (repeat' split at h) <;>
        first
          | exact Except.noConfusion h
          | (injection h with h; subst h
             exact ⟨rfl, fun hi => hi, fun a => Or.inl rfl⟩)
  | transfer toA amt =>
      simp only [execBiz, erc20Transfer, beforeTokenTransfer] at h
      (repeat' split at h) <;>
        first
          | exact Except.noConfusion h
          | (injection h with h; subst h
             exact ⟨rfl, fun hi => hi, fun a => Or.inl rfl⟩)
  | pause =>
      simp only [execBiz] at h
      (repeat' split at h) <;>
        first
          | exact Except.noConfusion h
          | (injection h with h; subst h
             exact ⟨rfl, fun hi => hi, fun a => Or.inl rfl⟩)
  | unpause =>
      simp only [execBiz] at h
      (repeat' split at h) <;>
        first
          | exact Except.noConfusion h
          | (injection h with h; subst h
             exact ⟨rfl, fun hi => hi, fun a => Or.inl rfl⟩)
  | verifyUser b =>
      cases impl with
      | V1 => exact Except.noConfusion h
      | V2 =>
          simp only [execBiz] at h
          injection h with h
          subst h
          exact ⟨rfl, fun hi => hi, fun a => Or.inl rfl⟩

/-- A successful management step leaves the storage untouched. -/
lemma execMgmt_ok_store (inst i' : Instance) (c : Call)
    (h : execMgmt inst c = Except.ok i') : i'.store = inst.store := by
  cases c <;> simp [execMgmt] at h <;> subst h <;> rfl

/-- A successful forwarded call is a successful business step of the active
implementation on the Instance's storage, and touches nothing else. -/
lemma forwardBiz_ok (inst : Instance) (caller : Address) (c : Call) (i' : Instance)
    (h : forwardBiz inst caller c = Except.ok i') :
    ∃ bc, c = Call.biz bc ∧
      execBiz inst.activeImpl caller bc inst.store = Except.ok i'.store ∧
      i'.activeImpl = inst.activeImpl ∧ i'.adminIdentity = inst.adminIdentity := by
  cases c with
  | biz bc =>
      refine ⟨bc, rfl, ?_⟩
      simp only [forwardBiz] at h
      cases he : execBiz inst.activeImpl caller bc inst.store with
      | ok s' =>
          rw [he] at h
          injection h with h
          subst h
          exact ⟨rfl, rfl, rfl⟩
      | error e =>
          rw [he] at h
          exact Except.noConfusion h
  | upgrade newImpl => simp [forwardBiz] at h
  | transferAdmin newAdmin => simp [forwardBiz] at h

/-- Any successful call either leaves the storage untouched (a management
call) or is a successful business step of the active implementation. -/
lemma handle_ok_store (inst : Instance) (caller : Address) (c : Call) (i' : Instance)
    (h : handle inst caller c = Except.ok i') :
    i'.store = inst.store ∨
      ∃ bc, c = Call.biz bc ∧
        execBiz inst.activeImpl caller bc inst.store = Except.ok i'.store := by
  unfold handle at h
  split at h
  · split at h
    · exact Or.inl (execMgmt_ok_store _ _ _ h)
    · split at h
      · rcases forwardBiz_ok _ _ _ _ h with ⟨bc, hc, he, -, -⟩
        exact Or.inr ⟨bc, hc, he⟩
      · cases h
  · rcases forwardBiz_ok _ _ _ _ h with ⟨bc, hc, he, -, -⟩
    exact Or.inr ⟨bc, hc, he⟩

/-- A storage predicate preserved by every permitted successful business step
is preserved by `applyCall`, for calls satisfying `Q`. -/
lemma applyCall_store_pres (P : Storage → Prop) (Q : Call → Prop)
    (hstep : ∀ impl sender bc t t', Q (Call.biz bc) →
      execBiz impl sender bc t = Except.ok t' → P t → P t')
    (inst : Instance) (caller : Address) (c : Call) (hQ : Q c) (h : P inst.store) :
    P (applyCall inst caller c).store := by
  unfold applyCall
  cases hh : handle inst caller c with
  | error e => exact h
  | ok i' =>
      rcases handle_ok_store _ _ _ _ hh with h1 | ⟨bc, hc, h2⟩
      · rw [h1]; exact h
      · exact hstep _ _ _ _ _ (hc ▸ hQ) h2 h

/-- The `applyCall` preservation lemma, iterated along any call sequence. -/
lemma runCalls_store_pres (P : Storage → Prop) (Q : Call → Prop)
    (hstep : ∀ impl sender bc t t', Q (Call.biz bc) →
      execBiz impl sender bc t = Except.ok t' → P t → P t') :
    ∀ (cs : List (Address × Call)) (inst : Instance),
      (∀ p ∈ cs, Q p.2) → P inst.store → P (runCalls inst cs).store := by
  intro cs
  induction cs with
  | nil => intro inst _ h; exact h
  | cons p t ih =>
      intro inst hq h
      have hstep1 : P (applyCall inst p.1 p.2).store :=
        applyCall_store_pres P Q hstep inst p.1 p.2 (hq p (List.mem_cons_self _ _)) h
      have : runCalls inst (p :: t) = runCalls (applyCall inst p.1 p.2) t := by
        simp [runCalls]
      rw [this]
      exact ih _ (fun q hqt => hq q (List.mem_cons_of_mem _ hqt)) hstep1

/-! ## Claim theorems -/

/-- C8: calling `initialize` directly on an implementation contract itself
(V1 or V2, not through the proxy Instance) always fails, for every caller,
because the implementation's constructor permanently disabled its
initializers via `_disableInitializers()`. -/
theorem c8_impl_self_init_always_fails :
    ∀ (impl : Impl) (caller : Address),
      execBiz impl caller BizCall.init implConstructedStorage
        = Except.error Err.AlreadyInitialized :=
  fun _ _ => rfl

/-- C5: under implementation V1, `mint(to, amount)` is unrestricted: for
every caller identity, on an initialized, unpaused storage the call succeeds,
increases `balance[to]` by `amount` (and the total supply likewise), and
touches no other balance. -/
theorem c5_v1_mint_unrestricted :
    ∀ (caller toA : Address) (amount : Nat) (s : Storage),
      s.initialized = true → s.paused = false →
      ∃ s' : Storage,
        execBiz Impl.V1 caller (BizCall.mint toA amount) s = Except.ok s' ∧
        s'.balances toA = s.balances toA + amount ∧
        s'.totalSupply = s.totalSupply + amount ∧
        (∀ a : Address, a ≠ toA → s'.balances a = s.balances a) := by
  intro caller toA amount s _ hp
  refine ⟨{ s with
              totalSupply := s.totalSupply + amount
              balances := mapWrite s.balances toA (s.balances toA + amount) },
          ?_, ?_, rfl, ?_⟩
  · simp [execBiz, erc20Mint, beforeTokenTransfer, hp]
  · simp [mapWrite]
  · intro a ha
    simp [mapWrite, ha]

/-- Witness for C5: minting 100 tokens to address 1 from a zero balance on a
fresh initialized storage yields balance 100, whoever the caller is. -/
theorem c5_v1_mint_unrestricted_witness :
    ∃ s' : Storage,
      execBiz Impl.V1 7 (BizCall.mint 1 100)
          { Storage.empty with initialized := true } = Except.ok s' ∧
      s'.balances 1 = ({ Storage.empty with initialized := true } : Storage).balances 1 + 100 ∧
      s'.totalSupply = ({ Storage.empty with initialized := true } : Storage).totalSupply + 100 ∧
      (∀ a : Address, a ≠ 1 → s'.balances a = ({ Storage.empty with initialized := true } : Storage).balances a) :=
  c5_v1_mint_unrestricted 7 1 100 { Storage.empty with initialized := true } rfl rfl

/-- C4: the end-to-end scenario.  Deploy (V1, admin and owner are address 0),
mint 100 to address 1 under V1, upgrade to V2; then `mint(1, 50)` fails while
address 1 is not whitelisted, after `addUser(1)` by the owner
`verifyUser(1) = true` holds, and a further `mint(1, 50)` succeeds leaving
`balance[1] = 150`. -/
theorem c4_whitelist_scenario :
    ∃ i0 i1 i2 i3 i4 : Instance,
      deployProxy 0 = Except.ok i0 ∧
      handle i0 7 (Call.biz (BizCall.mint 1 100)) = Except.ok i1 ∧
      i1.store.balances 1 = 100 ∧
      handle i1 0 (Call.upgrade Impl.V2) = Except.ok i2 ∧
      i2.store.balances 1 = 100 ∧
      handle i2 7 (Call.biz (BizCall.mint 1 50)) = Except.error Err.NotWhitelisted ∧
      handle i2 0 (Call.biz (BizCall.addUser 1)) = Except.ok i3 ∧
      verifyUser i3.store 1 = true ∧
      handle i3 7 (Call.biz (BizCall.mint 1 50)) = Except.ok i4 ∧
      i4.store.balances 1 = 150 :=
  ⟨_, _, _, _, _, rfl, rfl, rfl, rfl, rfl, rfl, rfl, rfl, rfl, rfl⟩

/-- The Instance exactly as `deployProxy deployer` creates it: V1 active,
the deployer as admin, and the storage initialized by the first (and only
successful) `initialize` call. -/
def freshInstance (deployer : Address) : Instance :=
  { activeImpl := Impl.V1
    adminIdentity := deployer
    store := { Storage.empty with
                 initialized := true
                 name := "ERC20Upgradable"
                 symbol := "EUC"
                 paused := false
                 owner := deployer } }

/-- C1: `initialize` succeeds at most once per Instance.  Deployment's first
call succeeds and records initialization; after any further sequence of calls
whatsoever, an `initialize` call from any caller fails with
`AlreadyInitialized` and leaves the Instance exactly as it was (no partial
effects). -/
theorem c1_init_exactly_once :
    ∀ deployer : Address, ∃ inst : Instance,
      deployProxy deployer = Except.ok inst ∧
      inst.store.initialized = true ∧
      ∀ (cs : List (Address × Call)) (caller : Address),
        handle (runCalls inst cs) caller (Call.biz BizCall.init)
            = Except.error Err.AlreadyInitialized ∧
        applyCall (runCalls inst cs) caller (Call.biz BizCall.init)
            = runCalls inst cs := by
  intro deployer
  refine ⟨freshInstance deployer, rfl, rfl, fun cs caller => ?_⟩
  have hinv :=
    runCalls_store_pres (fun t => t.initialized = true) (fun _ => True)
      (fun impl sender bc t t' _ he ht => (execBiz_ok_frame impl sender bc t t' he).2.1 ht)
      cs (freshInstance deployer) (fun _ _ => trivial) rfl
  constructor
  · rw [handle_biz]
    simp [forwardBiz, execBiz, hinv]
  · rw [applyCall, handle_biz]
    simp [forwardBiz, execBiz, hinv]

/-- C2: `upgrade` and `transferAdmin` succeed exactly when the caller is the
stored admin identity; every other caller receives `Unauthorized` and the
Instance is left completely unchanged. -/
theorem c2_mgmt_admin_only :
    ∀ (inst : Instance) (caller : Address) (newImpl : Impl) (newAdmin : Address),
      (handle inst caller (Call.upgrade newImpl)
          = Except.ok { inst with activeImpl := newImpl } ↔
        caller = inst.adminIdentity) ∧
      (handle inst caller (Call.transferAdmin newAdmin)
          = Except.ok { inst with adminIdentity := newAdmin } ↔
        caller = inst.adminIdentity) ∧
      (caller ≠ inst.adminIdentity →
        handle inst caller (Call.upgrade newImpl) = Except.error Err.Unauthorized ∧
        applyCall inst caller (Call.upgrade newImpl) = inst ∧
        handle inst caller (Call.transferAdmin newAdmin)
            = Except.error Err.Unauthorized ∧
        applyCall inst caller (Call.transferAdmin newAdmin) = inst) := by
  intro inst caller newImpl newAdmin
  by_cases hc : caller = inst.adminIdentity <;>
    simp [handle, execMgmt, implDefines, isMgmtSelector, Call.sel, applyCall, hc]

/-- C3: a successful admin `upgrade(B)` swaps only the active implementation:
the storage (in particular every balance) is unchanged, and every subsequent
forwarded business call executes B's code against that same storage.  (The
"B only appends fields" proviso holds by construction here: V2's layout
extends V1's by the whitelist mapping, which `Storage` carries throughout.) -/
theorem c3_upgrade_routes_and_preserves :
    ∀ (inst : Instance) (b : Impl) (caller : Address) (bc : BizCall),
      ∃ inst' : Instance,
        handle inst inst.adminIdentity (Call.upgrade b) = Except.ok inst' ∧
        inst'.activeImpl = b ∧
        inst'.store = inst.store ∧
        (∀ a : Address, inst'.store.balances a = inst.store.balances a) ∧
        handle inst' caller (Call.biz bc)
          = (match execBiz b caller bc inst.store with
             | .ok s' => Except.ok { inst' with store := s' }
             | .error e => Except.error e) := by
  intro inst b caller bc
  refine ⟨{ inst with activeImpl := b }, ?_, rfl, rfl, fun _ => rfl, ?_⟩
  · simp [handle, isMgmtSelector, Call.sel, execMgmt]
  · rw [handle_biz]
    rfl

/-- C6: the whitelist defaults to false.  Starting from a freshly deployed
Instance, after any sequence of calls in which `addUser(a)` is never called,
`verifyUser(a)` is false — in particular immediately after an `upgrade(V2)`
following such a history. -/
theorem c6_whitelist_defaults_false :
    ∀ (deployer a upgrader : Address) (cs : List (Address × Call)) (inst0 : Instance),
      deployProxy deployer = Except.ok inst0 →
      (∀ p ∈ cs, p.2 ≠ Call.biz (BizCall.addUser a)) →
      verifyUser (runCalls inst0 cs).store a = false ∧
      verifyUser
          (applyCall (runCalls inst0 cs) upgrader (Call.upgrade Impl.V2)).store a
        = false := by
  intro deployer a upgrader cs inst0 hdep hcs
  injection hdep with hdep
  have hstep : ∀ impl sender bc t t', (Call.biz bc ≠ Call.biz (BizCall.addUser a)) →
      execBiz impl sender bc t = Except.ok t' →
      t.whitelistedAddresses a = false → t'.whitelistedAddresses a = false := by
    intro impl sender bc t t' hQ he ht
    rcases (execBiz_ok_frame impl sender bc t t' he).2.2 a with heq | ⟨hbc, -⟩
    · rw [heq]; exact ht
    · exact absurd (by rw [hbc]) hQ
  have h0 : inst0.store.whitelistedAddresses a = false := by
    rw [← hdep]
    rfl
  have hrun :=
    runCalls_store_pres (fun t => t.whitelistedAddresses a = false)
      (fun c => c ≠ Call.biz (BizCall.addUser a)) hstep cs inst0 hcs h0
  refine ⟨hrun, ?_⟩
  exact
    applyCall_store_pres (fun t => t.whitelistedAddresses a = false)
      (fun c => c ≠ Call.biz (BizCall.addUser a)) hstep
      (runCalls inst0 cs) upgrader (Call.upgrade Impl.V2)
      (fun hh => Call.noConfusion hh) hrun

/-- Witness for C6: deploy from address 0, mint 100 tokens to address 1,
upgrade to V2; `verifyUser(1)` is false before and after the upgrade. -/
theorem c6_whitelist_defaults_false_witness :
    verifyUser
        (runCalls (freshInstance 0) [(7, Call.biz (BizCall.mint 1 100))]).store 1
      = false ∧
    verifyUser
        (applyCall (runCalls (freshInstance 0) [(7, Call.biz (BizCall.mint 1 100))])
          0 (Call.upgrade Impl.V2)).store 1
      = false :=
  c6_whitelist_defaults_false 0 1 0 [(7, Call.biz (BizCall.mint 1 100))]
    (freshInstance 0) rfl (by decide)

/-- C7: the Dispatcher routes on caller identity first, selector second.  For
a call whose selector is a reserved management operation: from the admin it
is handled by the management logic (`execMgmt`) and never reaches
implementation code; from any other caller it is forwarded as an ordinary
business call when the active implementation defines that selector and fails
`Unauthorized` otherwise — with these implementations, which define no
clashing selector, it always fails `Unauthorized`, so a non-admin caller
never triggers management logic (the instance's metadata is unchanged). -/
theorem c7_router_caller_identity_first :
    ∀ (inst : Instance) (caller : Address) (c : Call),
      isMgmtSelector (Call.sel c) = true →
      (caller = inst.adminIdentity →
        handle inst caller c = execMgmt inst c) ∧
      (caller ≠ inst.adminIdentity →
        handle inst caller c =
          (if implDefines inst.activeImpl (Call.sel c) then forwardBiz inst caller c
           else Except.error Err.Unauthorized) ∧
        handle inst caller c = Except.error Err.Unauthorized ∧
        (applyCall inst caller c).activeImpl = inst.activeImpl ∧
        (applyCall inst caller c).adminIdentity = inst.adminIdentity) := by
  intro inst caller c hm
  cases c with
  | biz bc => rw [isMgmt_biz] at hm; exact Bool.noConfusion hm
  | upgrade newImpl =>
      constructor
      · intro hc
        simp [handle, isMgmtSelector, Call.sel, hc]
      · intro hc
        simp [handle, execMgmt, implDefines, isMgmtSelector, Call.sel, applyCall, hc]
  | transferAdmin newAdmin =>
      constructor
      · intro hc
        simp [handle, isMgmtSelector, Call.sel, hc]
      · intro hc
        simp [handle, execMgmt, implDefines, isMgmtSelector, Call.sel, applyCall, hc]

/-- Witness for C7: a management-selector call (`upgrade(V2)`) on a concrete
Instance whose admin is address 0, as routed for callers 0 and 5. -/
theorem c7_router_caller_identity_first_witness :
    ((5 = (Instance.mk Impl.V1 0 Storage.empty).adminIdentity →
        handle (Instance.mk Impl.V1 0 Storage.empty) 5 (Call.upgrade Impl.V2)
          = execMgmt (Instance.mk Impl.V1 0 Storage.empty) (Call.upgrade Impl.V2)) ∧
      (5 ≠ (Instance.mk Impl.V1 0 Storage.empty).adminIdentity →
        handle (Instance.mk Impl.V1 0 Storage.empty) 5 (Call.upgrade Impl.V2) =
          (if implDefines (Instance.mk Impl.V1 0 Storage.empty).activeImpl
                (Call.sel (Call.upgrade Impl.V2)) then
             forwardBiz (Instance.mk Impl.V1 0 Storage.empty) 5 (Call.upgrade Impl.V2)
           else Except.error Err.Unauthorized) ∧
        handle (Instance.mk Impl.V1 0 Storage.empty) 5 (Call.upgrade Impl.V2)
            = Except.error Err.Unauthorized ∧
        (applyCall (Instance.mk Impl.V1 0 Storage.empty) 5 (Call.upgrade Impl.V2)).activeImpl
            = (Instance.mk Impl.V1 0 Storage.empty).activeImpl ∧
        (applyCall (Instance.mk Impl.V1 0 Storage.empty) 5 (Call.upgrade Impl.V2)).adminIdentity
            = (Instance.mk Impl.V1 0 Storage.empty).adminIdentity)) :=
  c7_router_caller_identity_first (Instance.mk Impl.V1 0 Storage.empty) 5
    (Call.upgrade Impl.V2) rfl

/-- On paused storage, no successful business call changes any balance: the
token-moving calls all revert at the `whenNotPaused` hook (V2's `mint` may
revert earlier at the whitelist check), and the remaining calls never touch
the balances mapping at all. -/
lemma execBiz_paused_ok_balances (impl : Impl) (caller : Address) (c : BizCall)
    (s s' : Storage) (hp : s.paused = true)
    (h : execBiz impl caller c s = Except.ok s') :
    ∀ a : Address, s'.balances a = s.balances a := by
  cases c with
  | mint toA amt =>
      cases impl with
      | V1 => simp [execBiz, erc20Mint, beforeTokenTransfer, hp] at h
      | V2 =>
          by_cases hw : verifyUser s toA <;>
            simp [execBiz, erc20Mint, beforeTokenTransfer, hp, hw] at h
  | burn amt => simp [execBiz, erc20Burn, beforeTokenTransfer, hp] at h
  | transfer toA amt => simp [execBiz, erc20Transfer, beforeTokenTransfer, hp] at h
  | init =>
      simp only [execBiz] at h
      split at h
      · exact Except.noConfusion h
      · injection h with h; subst h; intro a; rfl
  | pause =>
      simp only [execBiz, onlyOwner] at h
      (repeat' split at h) <;>
        first
          | exact Except.noConfusion h
          | (injection h with h; subst h; intro a; rfl)
  | unpause =>
      simp only [execBiz, onlyOwner] at h
      (repeat' split at h) <;>
        first
          | exact Except.noConfusion h
          | (injection h with h; subst h; intro a; rfl)
  | addUser b =>
      cases impl with
      | V1 => exact Except.noConfusion h
      | V2 =>
          simp only [execBiz, onlyOwner] at h
          (repeat' split at h) <;>
            first
              | exact Except.noConfusion h
              | (injection h with h; subst h; intro a; rfl)
  | verifyUser b =>
      cases impl with
      | V1 => exact Except.noConfusion h
      | V2 =>
          simp only [execBiz] at h
          injection h with h
          subst h
          intro a
          rfl

/-- C9: while the Instance is paused no token balance can change — `mint`,
`burn` and `transfer` all revert (via the `whenNotPaused` hook on
`_beforeTokenTransfer`; V2's `mint` may instead revert at its earlier
whitelist check), and indeed every call that does succeed leaves every
balance unchanged — and only the owner can move the Instance between the
paused and unpaused states. -/
theorem c9_paused_freezes_balances :
    ∀ (impl : Impl) (s : Storage) (caller toA : Address) (amount : Nat),
      (s.paused = true →
        (∃ e, execBiz impl caller (BizCall.mint toA amount) s = Except.error e) ∧
        execBiz impl caller (BizCall.burn amount) s = Except.error Err.Paused ∧
        execBiz impl caller (BizCall.transfer toA amount) s
            = Except.error Err.Paused ∧
        (∀ (c : BizCall) (s' : Storage), execBiz impl caller c s = Except.ok s' →
          ∀ a : Address, s'.balances a = s.balances a)) ∧
      (caller ≠ s.owner →
        execBiz impl caller BizCall.pause s = Except.error Err.NotOwner ∧
        execBiz impl caller BizCall.unpause s = Except.error Err.NotOwner) ∧
      (caller = s.owner →
        (s.paused = false →
          execBiz impl caller BizCall.pause s = Except.ok { s with paused := true }) ∧
        (s.paused = true →
          execBiz impl caller BizCall.unpause s
              = Except.ok { s with paused := false })) := by
  intro impl s caller toA amount
  refine
    ⟨fun hp => ⟨?_, ?_, ?_,
        fun c s' h => execBiz_paused_ok_balances impl caller c s s' hp h⟩,
      fun ho => ⟨?_, ?_⟩,
      fun ho => ⟨fun hp => ?_, fun hp => ?_⟩⟩
  · cases impl with
    | V1 => exact ⟨Err.Paused, by simp [execBiz, erc20Mint, beforeTokenTransfer, hp]⟩
    | V2 =>
        by_cases hw : verifyUser s toA
        · exact ⟨Err.Paused, by simp [execBiz, erc20Mint, beforeTokenTransfer, hp, hw]⟩
        · exact ⟨Err.NotWhitelisted, by simp [execBiz, hw]⟩
  · simp [execBiz, erc20Burn, beforeTokenTransfer, hp]
  · simp [execBiz, erc20Transfer, beforeTokenTransfer, hp]
  · simp [execBiz, onlyOwner, ho]
  · simp [execBiz, onlyOwner, ho]
  · simp [execBiz, onlyOwner, ho, hp]
  · simp [execBiz, onlyOwner, ho, hp]

/-- C10: under V2 the whitelist is monotone — once an address verifies as
whitelisted, no sequence of further calls, by any callers, ever makes
`verifyUser` return false for it (no operation clears a whitelist entry) —
and `verifyUser` itself never modifies storage. -/
theorem c10_whitelist_monotone :
    ∀ (a : Address) (inst : Instance) (cs : List (Address × Call))
      (sender : Address) (s : Storage),
      (verifyUser inst.store a = true →
        verifyUser (runCalls inst cs).store a = true) ∧
      execBiz Impl.V2 sender (BizCall.verifyUser a) s = Except.ok s := by
  intro a inst cs sender s
  constructor
  · intro h
    exact
      runCalls_store_pres (fun t => t.whitelistedAddresses a = true)
        (fun _ => True)
        (fun impl sender bc t t' _ he ht => by
          rcases (execBiz_ok_frame impl sender bc t t' he).2.2 a with heq | ⟨-, hw⟩
          · rw [heq]; exact ht
          · exact hw)
        cs inst (fun _ _ => trivial) h
  · rfl

end ERC20Upgradable
